import Mathlib

/-!
Verification development for the image-operations core of a radiomics
preprocessing library (`radiomics/imageoperations.py`).

The development shallowly embeds the source functions:
with numpy arrays as shape + row-major flat data over `ℚ`, SimpleITK images
as an array plus spatial metadata, and the external SimpleITK filtering
engine (bounding-box statistics, cropping, resampling, index-to-physical
transforms) as an abstract `Engine` parameter, since its pixel-level
behavior is outside this core.  The 1D stationary wavelet transform of
`pywt.swt` is likewise an abstract parameter.  All arithmetic the source
performs in floating point is embedded over the rationals.
-/

namespace Radiomics

/-- A numpy-style n-dimensional array: a shape together with the row-major
flat data buffer.  Intensities are embedded as rationals. -/
structure NdArray where
  shape : List Nat
  data : List ℚ

/-- A SimpleITK image: voxel array plus spatial metadata (size, spacing,
origin, direction cosines, pixel type identifier). -/
structure Image where
  arr : NdArray
  size : Fin 3 → ℤ
  spacing : Fin 3 → ℚ
  origin : Fin 3 → ℚ
  direction : Fin 9 → ℚ
  pixelID : ℤ

/-- The SimpleITK `sitkInt32` pixel-type identifier (`sitk.Cast(maskNode,
sitk.sitkInt32)` in `cropToTumorMask`); the concrete value is irrelevant. -/
def sitkInt32 : ℤ := 8

/-- `sitk.Cast`: changes only the pixel-type identifier of an image. -/
def sitkCast (img : Image) (pid : ℤ) : Image :=
  { img with pixelID := pid }

/-- A bounding box in the interleaved convention of
`sitk.LabelStatisticsImageFilter.GetBoundingBox`:
per axis the (inclusive lower bound, inclusive upper bound) pair.
The source's stride slices `boundingBox[0::2]` / `boundingBox[1::2]`
correspond to the first / second projection. -/
def StatsBB : Type := Fin 3 → ℤ × ℤ

/-- A bounding box in the convention of
`sitk.LabelShapeStatisticsImageFilter.GetBoundingBox`:
per axis the (lower bound, size) pair, i.e. `(L_X, L_Y, L_Z, S_X, S_Y, S_Z)`;
the source's `bb[:3]` / `bb[3:]` correspond to the first / second projection. -/
def ShapeBB : Type := Fin 3 → ℤ × ℤ

/-- The geometry descriptor handed to `sitk.ResampleImageFilter` by
`resampleImage`: output spacing, direction, size and origin
(`rif.SetOutputSpacing` / `SetOutputDirection` / `SetSize` /
`SetOutputOrigin`). -/
structure ResamplePlan where
  spacing : Fin 3 → ℚ
  direction : Fin 9 → ℚ
  size : Fin 3 → ℤ
  origin : Fin 3 → ℚ

/-- A SimpleITK module constant passed to `SetInterpolator`: one of the
interpolator kernels documented by `resampleImage` (nearest neighbor,
linear, BSpline, Gaussian), or any other module attribute value — in
SimpleITK these constants are plain integers, and `eval("sitk.%s")` can
resolve attributes that are not interpolation kernels at all (such as
`sitkInt32`), which the source then passes on without validation. -/
inductive SitkInterp where
  | sitkNearestNeighbor
  | sitkLinear
  | sitkBSpline
  | sitkGaussian
  | other (v : ℤ)
deriving DecidableEq

/-- The `interpolator` argument of `resampleImage`: either an interpolator
enumeration constant or a string name (the `isinstance(interpolator,
basestring)` branch). -/
inductive InterpArg where
  | enum (v : SitkInterp)
  | name (s : String)

/-- The external SimpleITK library, abstract for this development: label
statistics bounding boxes, label shape statistics bounding boxes,
crop-by-margins, resample-to-plan, the continuous-index-to-physical
transform, and the module attribute lookup `evalAttr` modelling
`eval("sitk.%s" % name)` — `some` exactly for the attributes of the sitk
module (interpolator kernels resolve to their constants, other attributes
such as `sitkInt32` to their `other` values), `none` when the name is not a
module attribute and `eval` raises.  Each claim quantifies over this engine
or instantiates it concretely. -/
structure Engine where
  statsBB : Image → Image → ℕ → StatsBB
  shapeBB : Image → ℕ → ShapeBB
  crop : (Fin 3 → ℤ) → (Fin 3 → ℤ) → Image → Image
  resample : ResamplePlan → ℤ → SitkInterp → Image → Image
  physPoint : Image → (Fin 3 → ℚ) → Fin 3 → ℚ
  evalAttr : String → Option SitkInterp

/-- The two-sided crop margins computed in `cropToTumorMask`
(`ijkMinBounds = boundingBox[0::2]`;
`ijkMaxBounds = size - boundingBox[1::2] - 1`). -/
def cropMargins (size : Fin 3 → ℤ) (boundingBox : StatsBB) :
    (Fin 3 → ℤ) × (Fin 3 → ℤ) :=
  (fun a => (boundingBox a).1, fun a => size a - (boundingBox a).2 - 1)

/-- `cropToTumorMask(imageNode, maskNode, label, boundingBox)`: cast the mask
to `sitkInt32`, compute the bounding box via the engine's label statistics
filter when not supplied, crop both image and mask with the margins of
`cropMargins`, cast the cropped mask back, and return both cropped images
together with the bounding box. -/
def cropToTumorMask (eng : Engine) (imageNode maskNode : Image) (label : ℕ)
    (boundingBox? : Option StatsBB) : Image × Image × StatsBB :=
  let oldMaskID := maskNode.pixelID
  let maskNode' := sitkCast maskNode sitkInt32
  let size : Fin 3 → ℤ := maskNode'.size
  let boundingBox := boundingBox?.getD (eng.statsBB imageNode maskNode' label)
  let m := cropMargins size boundingBox
  let croppedImageNode := eng.crop m.1 m.2 imageNode
  let croppedMaskNode := sitkCast (eng.crop m.1 m.2 maskNode') oldMaskID
  (croppedImageNode, croppedMaskNode, boundingBox)

/-- The `try/except` interpolator handling of `resampleImage` (lines
184-189): a string name is resolved by `eval("sitk.%s" % (interpolator))`
against the SimpleITK module (the engine's `evalAttr`); whatever attribute
value `eval` produces is used unvalidated — even a non-interpolator
constant; only when `eval` raises (the name is not a module attribute) does
the source log a warning and fall back to `sitk.sitkBSpline`. -/
def resolveInterpolator (eng : Engine) : InterpArg → SitkInterp
  | .enum v => v
  | .name s =>
    match eng.evalAttr s with
    | some v => v
    | none => .sitkBSpline

/-- The geometry computation of `resampleImage` on the resampling path
(lines 138-175): bounding box from the label shape statistics filter,
single-slice spacing override, spacing ratio, floor/ceil bounds with
clamping, new size, and the new origin via the continuous-index transform. -/
def resamplePlan (eng : Engine) (img mask : Image)
    (resampledPixelSpacing : Fin 3 → ℚ) (label : ℕ) (padDistance : ℚ) :
    ResamplePlan :=
  let oldSpacing : Fin 3 → ℚ := img.spacing
  let bb : ShapeBB := eng.shapeBB mask label
  let oldSize : Fin 3 → ℤ := fun a => (bb a).2
  let rps : Fin 3 → ℚ := fun a =>
    if oldSize a ≠ 1 then resampledPixelSpacing a else oldSpacing a
  let spacingRatio : Fin 3 → ℚ := fun a => oldSpacing a / rps a
  let bbNewLBound0 : Fin 3 → ℤ := fun a =>
    Int.floor ((((bb a).1 : ℚ) - 1/2) * spacingRatio a - padDistance)
  let bbNewUBound0 : Fin 3 → ℤ := fun a =>
    Int.ceil (((((bb a).1 + (bb a).2 : ℤ) : ℚ) - 1/2) * spacingRatio a + padDistance)
  let maxUbound : Fin 3 → ℤ := fun a =>
    Int.ceil ((img.size a : ℚ) * spacingRatio a) - 1
  let bbNewLBound : Fin 3 → ℤ := fun a =>
    if bbNewLBound0 a < 0 then 0 else bbNewLBound0 a
  let bbNewUBound : Fin 3 → ℤ := fun a =>
    if bbNewUBound0 a > maxUbound a then maxUbound a else bbNewUBound0 a
  let newSize : Fin 3 → ℤ := fun a => bbNewUBound a - bbNewLBound a + 1
  let bbOriginalLBound : Fin 3 → ℚ := fun a => (bbNewLBound a : ℚ) / spacingRatio a
  let newOriginIndex : Fin 3 → ℚ := fun a =>
    (1/2) * (rps a - oldSpacing a) / oldSpacing a
  let newCroppedOriginIndex : Fin 3 → ℚ := fun a =>
    newOriginIndex a + bbOriginalLBound a
  let newOrigin := eng.physPoint img newCroppedOriginIndex
  { spacing := rps, direction := img.direction, size := newSize,
    origin := newOrigin }

/-- The two result shapes of `resampleImage`: the spacing-equality shortcut
returns the 3-tuple of `cropToTumorMask` (cropped image, cropped mask,
bounding box), the resampling path returns the 2-tuple (resampled image,
resampled mask). -/
inductive ResampleResult where
  | cropped (image mask : Image) (boundingBox : StatsBB)
  | resampled (image mask : Image)

/-- The number of components of a `resampleImage` result tuple. -/
def ResampleResult.arity : ResampleResult → ℕ
  | .cropped _ _ _ => 3
  | .resampled _ _ => 2

/-- `resampleImage(imageNode, maskNode, resampledPixelSpacing, interpolator,
label, padDistance)`: `None` when image or mask is absent; the
`cropToTumorMask(imageNode, maskNode)` shortcut (at the default label 1 and
no cached bounding box) when the spacing already equals
`resampledPixelSpacing`; otherwise the resampling path, executing the
engine's resampler on the plan of `resamplePlan` with the resolved
interpolator for the image and nearest neighbor for the mask. -/
def resampleImage (eng : Engine) (imageNode maskNode : Option Image)
    (resampledPixelSpacing : Fin 3 → ℚ) (interpolator : InterpArg)
    (label : ℕ) (padDistance : ℚ) : Option ResampleResult :=
  match imageNode, maskNode with
  | some img, some mask =>
    if img.spacing = resampledPixelSpacing then
      let c := cropToTumorMask eng img mask 1 none
      some (.cropped c.1 c.2.1 c.2.2)
    else
      let plan := resamplePlan eng img mask resampledPixelSpacing label padDistance
      let interp := resolveInterpolator eng interpolator
      some (.resampled (eng.resample plan img.pixelID interp img)
        (eng.resample plan mask.pixelID .sitkNearestNeighbor mask))
  | _, _ => none

/-- `xrange(-maxDistance, maxDistance + 1)` as a list of integers, in
ascending order. -/
def symRange (d : ℕ) : List ℤ :=
  (List.range (2 * d + 1)).map fun (i : ℕ) => (i : ℤ) - (d : ℤ)

/-- The layered half-space enumeration of `generateAngles` (lines 48-57):
for each z in `xrange(1, maxDistance + 1)` append (0, 0, z), then for each y
append (0, z, y), then for each x append (z, y, x).  The z loop is embedded
as `z + 1` over `List.range maxDistance`, which enumerates the same values
1..maxDistance in the same order. -/
def anglesList (maxDistance : ℕ) : List (ℤ × ℤ × ℤ) :=
  (List.range maxDistance).flatMap fun z =>
    (((0 : ℤ), (0 : ℤ), ((z + 1 : ℕ) : ℤ))) ::
      (symRange maxDistance).flatMap fun y =>
        (((0 : ℤ), ((z + 1 : ℕ) : ℤ), y)) ::
          (symRange maxDistance).map fun x => (((z + 1 : ℕ) : ℤ), y, x)

/-- `numpy.min(size - numpy.abs(angles), 1)` for one row: the minimum over
the three components of size minus the componentwise absolute value. -/
def minMargin (size v : ℤ × ℤ × ℤ) : ℤ :=
  min (size.1 - |v.1|) (min (size.2.1 - |v.2.1|) (size.2.2 - |v.2.2|))

/-- `generateAngles(size, maxDistance)`: the layered enumeration with every
row whose `minMargin` is at most 0 deleted (line 59's `numpy.delete` on
`numpy.where(... <= 0)`). -/
def generateAngles (size : ℤ × ℤ × ℤ) (maxDistance : ℕ) :
    List (ℤ × ℤ × ℤ) :=
  (anglesList maxDistance).filter fun v => !decide (minMargin size v ≤ 0)

/-- `numpy.resize(data, shape)` on the flat buffer: repeat the data
cyclically until the requested total length is reached (zeros when the
source is empty). -/
def resizeData (l : List ℚ) (n : ℕ) : List ℚ :=
  if l = [] then List.replicate n 0
  else ((List.replicate (n / l.length + 1) l).flatten).take n

/-- `numpy.resize` of an array to a target shape: the flat buffer resized to
the product of the target shape. -/
def ndresize (a : NdArray) (s : List ℕ) : NdArray :=
  { shape := s, data := resizeData a.data s.prod }

/-- `_decompose_i(data, wavelet)`: iterating a 3D array and chaining yields
the rows along the last axis (the row-major buffer in chunks of the
last-axis length); the 1D stationary transform `swt` (returning the
(approximation cA, detail cD) pair, as `pywt.swt(...)[0]` does) is applied
to every row, and the rows are reassembled by `numpy.hstack` plus reshape to
the input shape.  Returns (H, L) = (detail, approximation). -/
def decompose_i (swt : List ℚ → List ℚ × List ℚ) (a : NdArray) :
    NdArray × NdArray :=
  match a.shape with
  | [x, y, z] =>
    let rows := a.data.toChunks z
    ({ shape := [x, y, z], data := (rows.map fun r => (swt r).2).flatten },
     { shape := [x, y, z], data := (rows.map fun r => (swt r).1).flatten })
  | _ => (a, a)

/-- `_decompose_j(data, wavelet)`: the same per-row transform along the last
axis, but reassembled by `numpy.vstack`, split into `shape[0]` slices, each
slice transposed — the output array has shape (x, z, y) (last two axes
swapped), with each x-slice the matrix transpose of the transformed slice. -/
def decompose_j (swt : List ℚ → List ℚ × List ℚ) (a : NdArray) :
    NdArray × NdArray :=
  match a.shape with
  | [x, y, z] =>
    let rows := a.data.toChunks z
    let reasm := fun (rs : List (List ℚ)) =>
      ((rs.toChunks y).map fun c => c.transpose.flatten).flatten
    ({ shape := [x, z, y], data := reasm (rows.map fun r => (swt r).2) },
     { shape := [x, z, y], data := reasm (rows.map fun r => (swt r).1) })
  | _ => (a, a)

/-- `_decompose_k(data, wavelet)`: iterating `numpy.transpose(data, (1,2,0))`
and chaining yields the lines along the first axis (the transpose of the
buffer in chunks of `y*z`); after the per-line transform, `numpy.dstack`
followed by reshape to the input shape lays the lines back down as the
flattened transpose. -/
def decompose_k (swt : List ℚ → List ℚ × List ℚ) (a : NdArray) :
    NdArray × NdArray :=
  match a.shape with
  | [x, y, z] =>
    let rows := (a.data.toChunks (y * z)).transpose
    ({ shape := [x, y, z],
       data := ((rows.map fun r => (swt r).2).transpose).flatten },
     { shape := [x, y, z],
       data := ((rows.map fun r => (swt r).1).transpose).flatten })
  | _ => (a, a)

/-- `sitk.GetImageFromArray`: an image over the given array with default
spatial metadata (unit spacing, zero origin, identity direction); the
image size is the reversed array shape. -/
def getImageFromArray (a : NdArray) : Image :=
  { arr := a,
    size := fun i => ((a.shape.getD (2 - (i : ℕ)) 0 : ℕ) : ℤ),
    spacing := fun _ => 1, origin := fun _ => 0,
    direction := fun i => if (i : ℕ) % 4 = 0 then 1 else 0,
    pixelID := 1 }

/-- `Image.CopyInformation`: copy origin, spacing and direction from the
source image onto the destination. -/
def copyInformation (dst src : Image) : Image :=
  { arr := dst.arr, size := dst.size, spacing := src.spacing,
    origin := src.origin, direction := src.direction,
    pixelID := dst.pixelID }

/-- The per-output postprocessing of `swt3` (applied to each detail volume
and to the final approximation): `numpy.resize` back to the original
(pre-padding) shape, wrap as an image, and copy the input image's spatial
metadata. -/
def swtOutput (inputImage : Image) (original_shape : List ℕ) (m : NdArray) :
    Image :=
  copyInformation (getImageFromArray (ndresize m original_shape)) inputImage

/-- The failure of `swt3` on non-3D input:
`ValueError("Expected 3D data array")`. -/
inductive SwtErr where
  | shapeError

/-- `swt3(inputImage, wavelet, level, start_level)`: the recursive separable
three-axis stationary wavelet decomposition.  The external 1D transform
(`pywt.swt` with the chosen wavelet kernel baked in) is the abstract
parameter `swt`.  Non-3D input fails with `SwtErr.shapeError` before any
decomposition; odd axes are padded by one entry via `numpy.resize`;
`start_level` full levels are run discarding details; then `level` levels
are recorded, each level producing the 7 detail sub-bands HHH..LLH (LLL
feeding the next level) postprocessed by `swtOutput`, and the final LLL
becomes the returned approximation. -/
def swt3 (swt : List ℚ → List ℚ × List ℚ) (inputImage : Image)
    (level : ℕ) (start_level : ℕ) :
    Except SwtErr (Image × List (List (String × Image))) :=
  let matrix := inputImage.arr
  let data := matrix
  if data.shape.length ≠ 3 then Except.error SwtErr.shapeError
  else
    let original_shape := matrix.shape
    let adjusted_shape := original_shape.map fun dim =>
      if dim % 2 ≠ 0 then dim + 1 else dim
    let data1 := ndresize data adjusted_shape
    let data2 := (List.range start_level).foldl
      (fun d _ =>
        let HL := decompose_i swt d
        let LHLL := decompose_j swt HL.2
        let LLHLLL := decompose_k swt LHLL.2
        LLHLLL.2) data1
    let res := (List.range level).foldl
      (fun (acc : NdArray × List (List (String × Image))) _ =>
        let d := acc.1
        let HL := decompose_i swt d
        let HHHL := decompose_j swt HL.1
        let LHLL := decompose_j swt HL.2
        let kHH := decompose_k swt HHHL.1
        let kHL := decompose_k swt HHHL.2
        let kLH := decompose_k swt LHLL.1
        let kLL := decompose_k swt LHLL.2
        let dec := [("HHH", swtOutput inputImage original_shape kHH.1),
                    ("HHL", swtOutput inputImage original_shape kHH.2),
                    ("HLH", swtOutput inputImage original_shape kHL.1),
                    ("HLL", swtOutput inputImage original_shape kHL.2),
                    ("LHH", swtOutput inputImage original_shape kLH.1),
                    ("LHL", swtOutput inputImage original_shape kLH.2),
                    ("LLH", swtOutput inputImage original_shape kLL.1)]
        (kLL.2, acc.2 ++ [dec])) (data2, [])
    Except.ok (swtOutput inputImage original_shape res.1, res.2)

/-- A concrete two-dimensional array, for probing the shape guard. -/
def twoDImage : Image :=
  { arr := { shape := [2, 2], data := List.replicate 4 0 },
    size := fun _ => 2, spacing := fun _ => 1, origin := fun _ => 0,
    direction := fun _ => 1, pixelID := 1 }

/-- A concrete identity-like 1D stationary transform (length preserving),
instantiating the abstract external wavelet transform in witnesses. -/
def idSwt : List ℚ → List ℚ × List ℚ := fun l => (l, l)

/-- A concrete all-zero 2x2x2 voxel array for concrete evaluations. -/
def zeroArr : NdArray :=
  { shape := [2, 2, 2], data := List.replicate 8 0 }

/-- A concrete test image: 2x2x2 zero array, size 4 per axis, unit spacing,
zero origin, identity-like direction, pixel type 1. -/
def testImage : Image :=
  { arr := zeroArr, size := fun _ => 4, spacing := fun _ => 1,
    origin := fun _ => 0, direction := fun _ => 1, pixelID := 1 }

/-- A concrete test mask, sharing the grid of `testImage`. -/
def testMask : Image :=
  { testImage with pixelID := 2 }

/-- A concrete instantiation of the external engine for witnesses and
counterexamples: the label statistics bounding box depends on the label
(per axis (1,2) for label 1, (0,3) otherwise), the label shape statistics
box is (lower 1, size 2) per axis, crop and resample return their input
image, the physical-point transform is the identity on indices, and the
module attribute lookup resolves the four documented interpolator kernels
to their constants and, like the real sitk module, further non-interpolator
attributes (such as `sitkInt32`, used by `cropToTumorMask` itself) to their
constant values, while a name like "noSuchKernel" that is not a sitk module
attribute does not resolve. -/
def testEngine : Engine where
  statsBB := fun _ _ label =>
    if label = 1 then fun _ => (1, 2) else fun _ => (0, 3)
  shapeBB := fun _ _ => fun _ => (1, 2)
  crop := fun _ _ img => img
  resample := fun _ _ _ img => img
  physPoint := fun _ idx => idx
  evalAttr := fun s =>
    if s = "sitkNearestNeighbor" then some .sitkNearestNeighbor
    else if s = "sitkLinear" then some .sitkLinear
    else if s = "sitkBSpline" then some .sitkBSpline
    else if s = "sitkGaussian" then some .sitkGaussian
    else if s = "sitkInt32" then some (.other 8)
    else if s = "sitkComposite" then some (.other 25)
    else if s = "sitkLabelGaussian" then some (.other 5)
    else none

/-- C2: for every volume size and every bounding box with per-axis
`0 ≤ lower ≤ upper < size`, the crop margins of `cropToTumorMask` satisfy
`lowerMargins + (upper - lower + 1) + upperMargins = size` component-wise,
and on the concrete scenario size (4,4,4), box lower (1,1,1) and box size
(2,2,2) (hence upper (2,2,2)) both margins are (1,1,1). -/
theorem cropMargins_partition (size : Fin 3 → ℤ) (bb : StatsBB)
    (hbb : ∀ a, 0 ≤ (bb a).1 ∧ (bb a).1 ≤ (bb a).2 ∧ (bb a).2 < size a) :
    (∀ a, (cropMargins size bb).1 a + ((bb a).2 - (bb a).1 + 1) +
        (cropMargins size bb).2 a = size a) ∧
    (∀ a, 0 ≤ (cropMargins size bb).1 a ∧ 0 ≤ (cropMargins size bb).2 a) ∧
    (∀ a, (cropMargins (fun _ => (4 : ℤ)) (fun _ => ((1 : ℤ), (2 : ℤ)))).1 a = 1 ∧
        (cropMargins (fun _ => (4 : ℤ)) (fun _ => ((1 : ℤ), (2 : ℤ)))).2 a = 1) := by
  refine ⟨fun a => ?_, fun a => ⟨?_, ?_⟩, fun a => ⟨rfl, rfl⟩⟩
  · simp only [cropMargins]
    ring
  · exact (hbb a).1
  · simp only [cropMargins]
    have h := (hbb a).2.2
    omega

/-- Witness for C2 at the concrete scenario of the claim. -/
theorem cropMargins_partition_witness :
    (cropMargins (fun _ => (4 : ℤ)) (fun _ => ((1 : ℤ), (2 : ℤ)))).1 0 +
        (((fun _ : Fin 3 => ((1 : ℤ), (2 : ℤ))) 0).2 - ((fun _ : Fin 3 => ((1 : ℤ), (2 : ℤ))) 0).1 + 1) +
        (cropMargins (fun _ => (4 : ℤ)) (fun _ => ((1 : ℤ), (2 : ℤ)))).2 0 = 4 :=
  (cropMargins_partition (fun _ => 4) (fun _ => (1, 2))
    (fun _ => by norm_num)).1 0

/-- C7: when the image or the mask is absent, `resampleImage` returns `None`
(the embedding is a total function, so no error is raised). -/
theorem resampleImage_missing_input (eng : Engine)
    (imageNode maskNode : Option Image) (rps : Fin 3 → ℚ) (interp : InterpArg)
    (label : ℕ) (pad : ℚ)
    (h : imageNode = none ∨ maskNode = none) :
    resampleImage eng imageNode maskNode rps interp label pad = none := by
  rcases h with h | h <;> subst h
  · cases maskNode <;> rfl
  · cases imageNode <;> rfl

/-- Witness for C7: a concrete probe with both inputs absent yields `None`. -/
theorem resampleImage_missing_input_witness :
    resampleImage testEngine none none (fun _ => 1) (.enum .sitkBSpline) 1 5 =
      none :=
  resampleImage_missing_input testEngine none none (fun _ => 1)
    (.enum .sitkBSpline) 1 5 (Or.inl rfl)

/-- C9: on the resampling path of `resampleImage`, the effective output
spacing of the computed plan equals the source spacing on every axis where
the label bounding box spans exactly one slice, and the caller-supplied
target spacing on every other axis; the result is the engine resampling of
exactly that plan. -/
theorem resamplePlan_single_slice_spacing (eng : Engine) (img mask : Image)
    (rps : Fin 3 → ℚ) (interp : InterpArg) (label : ℕ) (pad : ℚ)
    (hpath : img.spacing ≠ rps) :
    resampleImage eng (some img) (some mask) rps interp label pad =
      some (.resampled
        (eng.resample (resamplePlan eng img mask rps label pad) img.pixelID
          (resolveInterpolator eng interp) img)
        (eng.resample (resamplePlan eng img mask rps label pad) mask.pixelID
          .sitkNearestNeighbor mask)) ∧
    ∀ a, ((eng.shapeBB mask label a).2 = 1 →
        (resamplePlan eng img mask rps label pad).spacing a = img.spacing a) ∧
      ((eng.shapeBB mask label a).2 ≠ 1 →
        (resamplePlan eng img mask rps label pad).spacing a = rps a) := by
  refine ⟨?_, fun a => ⟨fun h => ?_, fun h => ?_⟩⟩
  · simp only [resampleImage, if_neg hpath]
  · simp [resamplePlan, h]
  · simp [resamplePlan, h]

/-- Witness for C9 at a concrete engine whose label-shape bounding box has
size 2 on axis 0, so the plan keeps the target spacing there. -/
theorem resamplePlan_single_slice_spacing_witness :
    (resamplePlan testEngine testImage testMask (fun _ => 2) 1 5).spacing 0 =
      (2 : ℚ) := by
  have h := (resamplePlan_single_slice_spacing testEngine testImage testMask
    (fun _ => 2) (.enum .sitkBSpline) 1 5
    (fun hc => by
      have h0 := congrFun hc 0
      simp [testImage] at h0)).2 0
  exact (h.2 (by simp [testEngine])).trans rfl

/-- C6 (amended): when the source spacing equals the target spacing exactly,
`resampleImage` skips the resampling geometry and returns the 3-tuple of
`cropToTumorMask` called with the DEFAULT label 1 (not the caller-supplied
label) and no cached bounding box, performing no interpolation. -/
theorem resampleImage_spacing_equal_shortcut (eng : Engine) (img mask : Image)
    (rps : Fin 3 → ℚ) (interp : InterpArg) (label : ℕ) (pad : ℚ)
    (h : img.spacing = rps) :
    resampleImage eng (some img) (some mask) rps interp label pad =
      some (.cropped (cropToTumorMask eng img mask 1 none).1
        (cropToTumorMask eng img mask 1 none).2.1
        (cropToTumorMask eng img mask 1 none).2.2) := by
  simp only [resampleImage, if_pos h]

/-- Witness for C6 (amended) at concrete inputs with equal spacings. -/
theorem resampleImage_spacing_equal_shortcut_witness :
    resampleImage testEngine (some testImage) (some testMask) (fun _ => 1)
      (.enum .sitkBSpline) 2 5 =
      some (.cropped (cropToTumorMask testEngine testImage testMask 1 none).1
        (cropToTumorMask testEngine testImage testMask 1 none).2.1
        (cropToTumorMask testEngine testImage testMask 1 none).2.2) :=
  resampleImage_spacing_equal_shortcut testEngine testImage testMask
    (fun _ => 1) (.enum .sitkBSpline) 2 5 rfl

/-- Counterexample to C6 as stated: with equal spacings and caller label 2,
`resampleImage` does NOT return the crop at the caller's label — the
shortcut always crops at the default label 1, whose bounding box differs
from label 2's under `testEngine`. -/
theorem resampleImage_spacing_equal_label_counterexample :
    resampleImage testEngine (some testImage) (some testMask) (fun _ => 1)
      (.enum .sitkBSpline) 2 5 ≠
      some (.cropped (cropToTumorMask testEngine testImage testMask 2 none).1
        (cropToTumorMask testEngine testImage testMask 2 none).2.1
        (cropToTumorMask testEngine testImage testMask 2 none).2.2) := by
  intro h
  have hsp : testImage.spacing = (fun _ => (1 : ℚ)) := rfl
  simp only [resampleImage] at h
  rw [if_pos hsp] at h
  simp only [Option.some.injEq, ResampleResult.cropped.injEq] at h
  have hbb := h.2.2
  simp only [cropToTumorMask, testEngine, Option.getD] at hbb
  have h0 := congrFun hbb 0
  simp at h0

/-- C10: the two result arities of `resampleImage`: with equal spacings it
returns a 3-tuple result (including the bounding box), on the resampling
path a 2-tuple result, so the result arity differs between valid inputs. -/
theorem resampleImage_result_arity :
    (∃ r, resampleImage testEngine (some testImage) (some testMask)
        (fun _ => 1) (.enum .sitkBSpline) 1 5 = some r ∧ r.arity = 3) ∧
    (∃ r, resampleImage testEngine (some testImage) (some testMask)
        (fun _ => 2) (.enum .sitkBSpline) 1 5 = some r ∧ r.arity = 2) := by
  constructor
  · refine ⟨.cropped (cropToTumorMask testEngine testImage testMask 1 none).1
      (cropToTumorMask testEngine testImage testMask 1 none).2.1
      (cropToTumorMask testEngine testImage testMask 1 none).2.2, ?_, rfl⟩
    have hsp : testImage.spacing = (fun _ => (1 : ℚ)) := rfl
    simp only [resampleImage]
    rw [if_pos hsp]
  · refine ⟨.resampled
      (testEngine.resample
        (resamplePlan testEngine testImage testMask (fun _ => 2) 1 5)
        testImage.pixelID
        (resolveInterpolator testEngine (.enum .sitkBSpline)) testImage)
      (testEngine.resample
        (resamplePlan testEngine testImage testMask (fun _ => 2) 1 5)
        testMask.pixelID .sitkNearestNeighbor testMask), ?_, rfl⟩
    have hne : testImage.spacing ≠ (fun _ => (2 : ℚ)) := fun hc => by
      have h0 := congrFun hc 0
      simp [testImage] at h0
    simp only [resampleImage]
    rw [if_neg hne]

/-- C1 (amended): `resampleImage` never fails on an interpolator given as a
string name.  When the name is not an attribute of the sitk module (`eval`
raises), it silently substitutes `sitk.sitkBSpline`, behaving exactly as if
`sitkBSpline` had been requested; when the name IS a module attribute —
even one that is not an interpolation kernel, such as `sitkInt32` — the
evaluated constant is used directly, with no validation and no fallback. -/
theorem resampleImage_name_eval_fallback (eng : Engine)
    (img mask : Image) (rps : Fin 3 → ℚ) (s : String) (label : ℕ)
    (pad : ℚ) :
    (eng.evalAttr s = none →
      resampleImage eng (some img) (some mask) rps (.name s) label pad =
        resampleImage eng (some img) (some mask) rps (.enum .sitkBSpline)
          label pad) ∧
    (∀ v, eng.evalAttr s = some v →
      resampleImage eng (some img) (some mask) rps (.name s) label pad =
        resampleImage eng (some img) (some mask) rps (.enum v) label pad) := by
  constructor
  · intro h
    simp only [resampleImage, resolveInterpolator, h]
  · intro v h
    simp only [resampleImage, resolveInterpolator, h]

/-- Witness for C1 (amended): "noSuchKernel" is not a sitk module attribute,
so the concrete call falls back to `sitkBSpline`. -/
theorem resampleImage_name_eval_fallback_witness :
    resampleImage testEngine (some testImage) (some testMask) (fun _ => 2)
      (.name "noSuchKernel") 1 5 =
      resampleImage testEngine (some testImage) (some testMask) (fun _ => 2)
        (.enum .sitkBSpline) 1 5 :=
  (resampleImage_name_eval_fallback testEngine testImage testMask
    (fun _ => 2) "noSuchKernel" 1 5).1 rfl

/-- Counterexample to C1 as stated: the concrete `resampleImage` call with
the interpolator name "noSuchKernel" — not a recognized kernel, and not an
attribute of the sitk module, so `eval` raises at line 186 — succeeds
(returns a result rather than failing with UnsupportedKernel) and yields
exactly the result of the same call with `sitkBSpline`: the silent default
substitution the claim rules out.  Moreover the name "sitkInt32", also not
a recognized kernel but a real sitk module attribute, likewise does not
fail: its evaluated constant is passed through unvalidated. -/
theorem resampleImage_interpolator_fallback_counterexample :
    testEngine.evalAttr "noSuchKernel" = none ∧
    resampleImage testEngine (some testImage) (some testMask) (fun _ => 2)
      (.name "noSuchKernel") 1 5 =
      resampleImage testEngine (some testImage) (some testMask) (fun _ => 2)
        (.enum .sitkBSpline) 1 5 ∧
    (resampleImage testEngine (some testImage) (some testMask) (fun _ => 2)
      (.name "noSuchKernel") 1 5).isSome = true ∧
    testEngine.evalAttr "sitkInt32" = some (.other 8) ∧
    resampleImage testEngine (some testImage) (some testMask) (fun _ => 2)
      (.name "sitkInt32") 1 5 =
      resampleImage testEngine (some testImage) (some testMask) (fun _ => 2)
        (.enum (.other 8)) 1 5 ∧
    (resampleImage testEngine (some testImage) (some testMask) (fun _ => 2)
      (.name "sitkInt32") 1 5).isSome = true := by
  have hne : testImage.spacing ≠ (fun _ => (2 : ℚ)) := fun hc => by
    have h0 := congrFun hc 0
    simp [testImage] at h0
  refine ⟨rfl, rfl, ?_, rfl, rfl, ?_⟩
  · simp only [resampleImage]
    rw [if_neg hne]
    rfl
  · simp only [resampleImage]
    rw [if_neg hne]
    rfl

/-- C3: on the resampling path of `resampleImage`, per axis the grid size of
the computed plan equals newUpper - newLower + 1, where newLower is
floor((boxLower - 0.5) * spacingRatio - padDistance) clamped to be at least
0, newUpper is ceil((boxLower + boxSize - 0.5) * spacingRatio + padDistance)
clamped to be at most ceil(sourceSize * spacingRatio) - 1, spacingRatio is
the source spacing divided by the effective target spacing recorded in the
plan, and this grid size is strictly positive. -/
theorem resamplePlan_size_bounds (eng : Engine) (img mask : Image)
    (rps : Fin 3 → ℚ) (label : ℕ) (pad : ℚ) (hpad : 0 ≤ pad)
    (hspacing : ∀ a, 0 < img.spacing a) (hrps : ∀ a, 0 < rps a)
    (hbb : ∀ a, 0 ≤ (eng.shapeBB mask label a).1 ∧
      1 ≤ (eng.shapeBB mask label a).2 ∧
      (eng.shapeBB mask label a).1 + (eng.shapeBB mask label a).2 ≤
        img.size a) :
    ∀ a,
      (resamplePlan eng img mask rps label pad).size a =
        min (Int.ceil ((img.size a : ℚ) * (img.spacing a /
              (resamplePlan eng img mask rps label pad).spacing a)) - 1)
          (Int.ceil (((((eng.shapeBB mask label a).1 +
                (eng.shapeBB mask label a).2 : ℤ) : ℚ) - 1/2) *
              (img.spacing a /
                (resamplePlan eng img mask rps label pad).spacing a) + pad)) -
        max 0 (Int.floor ((((eng.shapeBB mask label a).1 : ℚ) - 1/2) *
            (img.spacing a /
              (resamplePlan eng img mask rps label pad).spacing a) - pad)) +
        1 ∧
      0 < (resamplePlan eng img mask rps label pad).size a := by
  intro a
  obtain ⟨hl, hs, hls⟩ := hbb a
  simp only [resamplePlan]
  have heff : 0 < (if (eng.shapeBB mask label a).2 ≠ 1 then rps a
      else img.spacing a) := by
    split
    · exact hrps a
    · exact hspacing a
  set e : ℚ := if (eng.shapeBB mask label a).2 ≠ 1 then rps a
    else img.spacing a with he
  have hr : 0 < img.spacing a / e := div_pos (hspacing a) heff
  set r : ℚ := img.spacing a / e with hrdef
  set l : ℤ := (eng.shapeBB mask label a).1 with hldef
  set s : ℤ := (eng.shapeBB mask label a).2 with hsdef
  set S : ℤ := img.size a with hSdef
  set F : ℤ := Int.floor (((l : ℚ) - 1/2) * r - pad) with hF
  set C : ℤ := Int.ceil ((((l + s : ℤ) : ℚ) - 1/2) * r + pad) with hC
  set M : ℤ := Int.ceil ((S : ℚ) * r) with hM
  have hS1 : (1 : ℤ) ≤ S := by omega
  have hSpos : (0 : ℚ) < (S : ℚ) := by exact_mod_cast hS1
  have hM1 : 1 ≤ M := by
    rw [hM]
    exact Int.ceil_pos.mpr (mul_pos hSpos hr)
  have hC1 : 1 ≤ C := by
    rw [hC]
    refine Int.ceil_pos.mpr ?_
    have hls1 : (1 : ℚ) ≤ ((l + s : ℤ) : ℚ) := by exact_mod_cast (by omega : (1 : ℤ) ≤ l + s)
    have : (0 : ℚ) < (((l + s : ℤ) : ℚ) - 1/2) * r :=
      mul_pos (by linarith) hr
    linarith
  have hxm : ((l : ℚ) - 1/2) * r - pad < (S : ℚ) * r := by
    have hlS : (l : ℚ) - 1/2 < (S : ℚ) := by
      have : l + 1 ≤ S := by omega
      have hcast : (l : ℚ) + 1 ≤ (S : ℚ) := by exact_mod_cast this
      linarith
    have := mul_lt_mul_of_pos_right hlS hr
    linarith
  have hFM : F ≤ M - 1 := by
    have h1 : (F : ℚ) ≤ ((l : ℚ) - 1/2) * r - pad := by
      rw [hF]
      exact Int.floor_le _
    have h2 : (S : ℚ) * r ≤ (M : ℚ) := by
      rw [hM]
      exact Int.le_ceil _
    have : (F : ℚ) < (M : ℚ) := by linarith
    have hFltM : F < M := by exact_mod_cast this
    omega
  have hFC : F ≤ C := by
    have h1 : (F : ℚ) ≤ ((l : ℚ) - 1/2) * r - pad := by
      rw [hF]
      exact Int.floor_le _
    have hxy : ((l : ℚ) - 1/2) * r - pad ≤
        (((l + s : ℤ) : ℚ) - 1/2) * r + pad := by
      have hAB : (l : ℚ) - 1/2 ≤ ((l + s : ℤ) : ℚ) - 1/2 := by
        have : (l : ℚ) ≤ ((l + s : ℤ) : ℚ) := by
          exact_mod_cast (by omega : l ≤ l + s)
        linarith
      have := mul_le_mul_of_nonneg_right hAB hr.le
      linarith
    have h2 : (((l + s : ℤ) : ℚ) - 1/2) * r + pad ≤ (C : ℚ) := by
      rw [hC]
      exact Int.le_ceil _
    have : (F : ℚ) ≤ (C : ℚ) := by linarith
    exact_mod_cast this
  constructor
  · split_ifs <;> omega
  · split_ifs <;> omega

/-- Witness for C3: at the concrete engine the plan size on axis 0 is
strictly positive. -/
theorem resamplePlan_size_bounds_witness :
    0 < (resamplePlan testEngine testImage testMask (fun _ => 2) 1 5).size 0 :=
  (resamplePlan_size_bounds testEngine testImage testMask (fun _ => 2) 1 5
    (by norm_num) (fun a => by norm_num [testImage])
    (fun a => by norm_num)
    (fun a => by simp [testEngine, testImage]) 0).2

/-- The symmetric coordinate range has no duplicates. -/
theorem symRange_nodup (d : ℕ) : (symRange d).Nodup := by
  rw [symRange]
  refine List.Nodup.map ?_ (List.nodup_range _)
  intro i j h
  dsimp only at h
  omega

/-- The layered half-space enumeration has no duplicate vectors. -/
theorem anglesList_nodup (d : ℕ) : (anglesList d).Nodup := by
  rw [anglesList, List.nodup_flatMap]
  refine ⟨fun z hz => ?_, ?_⟩
  · rw [List.nodup_cons]
    refine ⟨?_, ?_⟩
    · simp only [List.mem_flatMap, List.mem_cons, List.mem_map]
      rintro ⟨y, hy, h | ⟨x, hx, h⟩⟩ <;> simp_all [Prod.ext_iff] <;> omega
    · rw [List.nodup_flatMap]
      refine ⟨fun y hy => ?_, ?_⟩
      · rw [List.nodup_cons]
        refine ⟨?_, List.Nodup.map ?_ (symRange_nodup d)⟩
        · simp only [List.mem_map]
          rintro ⟨x, hx, h⟩
          simp only [Prod.ext_iff] at h
          omega
        · intro x1 x2 h
          simpa [Prod.ext_iff] using h
      · refine List.Pairwise.imp ?_ (symRange_nodup d)
        intro y1 y2 hne
        intro v hv1 hv2
        simp only [List.mem_cons, List.mem_map] at hv1 hv2
        rcases hv1 with rfl | ⟨x1, hx1, rfl⟩ <;>
          rcases hv2 with h | ⟨x2, hx2, h⟩ <;>
            simp_all [Prod.ext_iff] <;> omega
  · refine List.Pairwise.imp ?_ (List.nodup_range d)
    intro z1 z2 hne
    intro v hv1 hv2
    simp only [List.mem_cons, List.mem_flatMap, List.mem_map] at hv1 hv2
    rcases hv1 with rfl | ⟨y1, hy1, rfl | ⟨x1, hx1, rfl⟩⟩ <;>
      rcases hv2 with h | ⟨y2, hy2, h | ⟨x2, hx2, h⟩⟩ <;>
        simp_all [Prod.ext_iff] <;> omega

/-- The zero vector never appears in the layered enumeration. -/
theorem zero_not_mem_anglesList (d : ℕ) :
    ((0, 0, 0) : ℤ × ℤ × ℤ) ∉ anglesList d := by
  simp only [anglesList, List.mem_flatMap, List.mem_cons, List.mem_map]
  rintro ⟨z, hz, h | ⟨y, hy, h | ⟨x, hx, h⟩⟩⟩ <;>
    simp_all [Prod.ext_iff] <;> omega

/-- C5: for every maxDistance at least 1 and bounding size with all three
components greater than maxDistance, `generateAngles` is non-empty, has no
duplicate vectors, does not contain the zero vector, and contains no
enumerated vector whose feasibility margin is at most 0; concretely
`generateAngles (5,5,5) 1` has exactly 13 vectors, without duplicates, all
non-zero with components in {-1, 0, 1}. -/
theorem generateAngles_props :
    (∀ (d : ℕ) (size : ℤ × ℤ × ℤ), 1 ≤ d →
      (d : ℤ) < size.1 → (d : ℤ) < size.2.1 → (d : ℤ) < size.2.2 →
      generateAngles size d ≠ [] ∧
      (generateAngles size d).Nodup ∧
      ((0, 0, 0) : ℤ × ℤ × ℤ) ∉ generateAngles size d ∧
      ∀ v ∈ anglesList d, minMargin size v ≤ 0 →
        v ∉ generateAngles size d) ∧
    ((generateAngles (5, 5, 5) 1).length = 13 ∧
      (generateAngles (5, 5, 5) 1).Nodup ∧
      ∀ v ∈ generateAngles (5, 5, 5) 1,
        v ≠ ((0, 0, 0) : ℤ × ℤ × ℤ) ∧ v.1 ∈ ([-1, 0, 1] : List ℤ) ∧
          v.2.1 ∈ ([-1, 0, 1] : List ℤ) ∧ v.2.2 ∈ ([-1, 0, 1] : List ℤ)) := by
  constructor
  · intro d size hd h1 h2 h3
    refine ⟨?_, (anglesList_nodup d).filter _, ?_, ?_⟩
    · have hmem : ((0, 0, 1) : ℤ × ℤ × ℤ) ∈ generateAngles size d := by
        rw [generateAngles, List.mem_filter]
        constructor
        · rw [anglesList]
          refine List.mem_flatMap.mpr ⟨0, List.mem_range.mpr hd, ?_⟩
          simp
        · simp only [minMargin, Bool.not_eq_eq_eq_not, Bool.not_true,
            decide_eq_false_iff_not, not_le]
          simp only [abs_zero, abs_one]
          omega
      exact List.ne_nil_of_mem hmem
    · intro h
      exact zero_not_mem_anglesList d (List.mem_filter.mp h).1
    · intro v hv hle hvf
      have h2f := (List.mem_filter.mp hvf).2
      rw [Bool.not_eq_eq_eq_not, Bool.not_true, decide_eq_false_iff_not] at h2f
      exact h2f hle
  · refine ⟨by decide, by decide, by decide⟩

/-- Witness for C5 at maxDistance 1 and bounding size (5,5,5). -/
theorem generateAngles_props_witness :
    generateAngles (5, 5, 5) 1 ≠ [] ∧
      (generateAngles (5, 5, 5) 1).Nodup ∧
      ((0, 0, 0) : ℤ × ℤ × ℤ) ∉ generateAngles (5, 5, 5) 1 :=
  have h := (generateAngles_props.1 1 (5, 5, 5) (by norm_num) (by norm_num)
    (by norm_num) (by norm_num))
  ⟨h.1, h.2.1, h.2.2.1⟩

/-- C8: `swt3` fails with the shape error for every input whose array is not
exactly 3-dimensional; in the embedding the guard is the first step of the
function, before any decomposition work. -/
theorem swt3_shape_error (swt : List ℚ → List ℚ × List ℚ)
    (inputImage : Image) (level start_level : ℕ)
    (h : inputImage.arr.shape.length ≠ 3) :
    swt3 swt inputImage level start_level =
      Except.error SwtErr.shapeError := by
  simp [swt3, h]

/-- Witness for C8 at a concrete 2-dimensional input. -/
theorem swt3_shape_error_witness :
    swt3 idSwt twoDImage 1 0 = Except.error SwtErr.shapeError :=
  swt3_shape_error idSwt twoDImage 1 0 (by decide)

/-- C4: for any length-preserving-or-not 1D transform, `swt3` at one level
starting from level 0 on a 3D volume of even shape (a,b,c) returns an
approximation and exactly one subband set whose keys are the 7 detail codes
HHH, HHL, HLH, HLL, LHH, LHL, LLH (LLL excluded), with every returned
volume of array shape exactly (a,b,c) and with spacing, origin and
direction copied unchanged from the input volume. -/
theorem swt3_level1_shapes (swt : List ℚ → List ℚ × List ℚ)
    (inputImage : Image) (a b c : ℕ)
    (ha : inputImage.arr.shape = [a, b, c])
    (hae : a % 2 = 0) (hbe : b % 2 = 0) (hce : c % 2 = 0) :
    ∃ approximation dec,
      swt3 swt inputImage 1 0 = Except.ok (approximation, [dec]) ∧
      dec.map Prod.fst = ["HHH", "HHL", "HLH", "HLL", "LHH", "LHL", "LLH"] ∧
      "LLL" ∉ dec.map Prod.fst ∧
      approximation.arr.shape = [a, b, c] ∧
      approximation.spacing = inputImage.spacing ∧
      approximation.origin = inputImage.origin ∧
      approximation.direction = inputImage.direction ∧
      ∀ p ∈ dec, p.2.arr.shape = [a, b, c] ∧
        p.2.spacing = inputImage.spacing ∧ p.2.origin = inputImage.origin ∧
        p.2.direction = inputImage.direction := by
  simp only [swt3, ndresize, ha, List.length_cons, List.length_nil,
    List.range_succ, List.range_zero, List.foldl_nil, List.foldl_cons,
    List.nil_append, decompose_i, decompose_j, decompose_k, swtOutput]
  rw [if_neg (by norm_num)]
  refine ⟨_, _, rfl, rfl, by simp, rfl, rfl, rfl, rfl, ?_⟩
  simp [copyInformation, getImageFromArray, ndresize]

/-- Witness for C4 on a concrete 2x2x2 zero volume with the identity 1D
transform. -/
theorem swt3_level1_shapes_witness :
    ∃ approximation dec,
      swt3 idSwt testImage 1 0 = Except.ok (approximation, [dec]) ∧
      dec.map Prod.fst =
        ["HHH", "HHL", "HLH", "HLL", "LHH", "LHL", "LLH"] := by
  obtain ⟨A, D, h1, h2, _⟩ :=
    swt3_level1_shapes idSwt testImage 2 2 2 rfl rfl rfl rfl
  exact ⟨A, D, h1, h2⟩

end Radiomics
